import Mathlib

/-!
Shallow embedding of the studybuddy-ai front-end (TypeScript sources under
`src/`): the `LearnWithAIClient` HTTP wrapper (`src/lib/api.ts`), the upload
modal and quiz state machine (`src/components/UploadModal.tsx`), and the chat
flow (`src/components/ChatInterface.tsx`).  JavaScript's untyped values are
modelled by `Json`; browser effects (toasts, network requests) are returned
explicitly by each handler.
-/

namespace StudyBuddy

/-- Model of a parsed JSON / untyped JavaScript value. -/
inductive Json where
  | null : Json
  | bool (b : Bool) : Json
  | num (n : Int) : Json
  | str (s : String) : Json
  | arr (elems : List Json) : Json
  | obj (fields : List (String × Json)) : Json

/-- Property access `j[key]` on a JS value: `some` field value on objects that
have the key, otherwise `none` (JS `undefined`). -/
def Json.lookupField : Json → String → Option Json
  | .obj fields, key => fields.lookup key
  | _, _ => none

/-- JS truthiness of a value: `null`, `false`, `0` and `""` are falsy; arrays
and objects are always truthy. -/
def Json.truthy : Json → Bool
  | .null => false
  | .bool b => b
  | .num n => n != 0
  | .str s => s != ""
  | .arr _ => true
  | .obj _ => true

/-- JS truthiness of a possibly-absent value (`undefined` is falsy). -/
def jsTruthy? : Option Json → Bool
  | none => false
  | some j => j.truthy

/-- A toast notification, as produced by `useToast().toast(...)`. -/
structure Toast where
  title : String
  description : String
deriving Repr, DecidableEq

/-- A network request issued by the client (only identity matters here:
handlers return the list of requests they issue, so "no network call" is an
empty list). -/
structure ApiCall where
  method : String
  path : String
deriving Repr, DecidableEq

/-! ## `LearnWithAIClient` (src/lib/api.ts) -/

/-- The client's mutable session: `token` is the in-memory field
`this.token : string | null`, `storedToken` is the `authToken` entry of
`localStorage`. -/
structure ClientState where
  token : Option String
  storedToken : Option String
deriving Repr, DecidableEq

/-- JS truthiness of `this.token` (`null` and `""` are falsy). -/
def tokenTruthy : Option String → Bool
  | none => false
  | some t => t != ""

/-- String interpolation of `this.token` into a template literal:
`null` prints as the four characters `null`. -/
def jsTemplateStr : Option String → String
  | none => "null"
  | some t => t

/-- `logout()`: clears the in-memory token and the persisted token.  The
returned list is the network requests issued — none. -/
def logout (_s : ClientState) : ClientState × List ApiCall :=
  ({ token := none, storedToken := none }, [])

/-- `isAuthenticated()`: `!!this.token`. -/
def isAuthenticated (s : ClientState) : Bool :=
  tokenTruthy s.token

/-- Headers built by `request(...)`: a `Content-Type: application/json` base,
the caller's extra headers spread in, then `Authorization` assigned when the
token is truthy (`if (this.token) headers.Authorization = ...`). -/
def requestHeaders (s : ClientState) (extra : List (String × String)) :
    List (String × String) :=
  let base := ("Content-Type", "application/json") :: extra
  match s.token with
  | some t => if t != "" then base ++ [("Authorization", "Bearer " ++ t)] else base
  | none => base

/-- Headers built by `uploadNote(...)`: it bypasses `request` and always sets
`Authorization: Bearer ${this.token}`, even when the token is `null`. -/
def uploadNoteHeaders (s : ClientState) : List (String × String) :=
  [("Authorization", "Bearer " ++ jsTemplateStr s.token)]

/-- An HTTP response as seen by the client: numeric status, status text, and
the JSON-parsed body. -/
structure HttpResponse where
  status : Nat
  statusText : String
  body : Json

/-- `response.ok`: status in the 200–299 success range. -/
def HttpResponse.ok (r : HttpResponse) : Bool :=
  200 ≤ r.status && r.status ≤ 299

/-- A thrown JS `Error`: it carries only a message string, never a structured
body. -/
structure JsError where
  message : String

/-- Response handling in `request(...)`: non-ok statuses throw
`Error(\x7bAPI Error: ${status} ${statusText}\x7d)`; ok responses are returned as
`response.json()` with no schema validation. -/
def handleResponse (r : HttpResponse) : Except JsError Json :=
  if r.ok then .ok r.body
  else .error ⟨"API Error: " ++ toString r.status ++ " " ++ r.statusText⟩

/-- Response handling in `uploadNote(...)`: non-ok statuses throw
`Error(\x7bUpload failed: ${status}\x7d)`; ok responses are returned as
`response.json()`. -/
def uploadHandleResponse (r : HttpResponse) : Except JsError Json :=
  if r.ok then .ok r.body
  else .error ⟨"Upload failed: " ++ toString r.status⟩

/-! ## UploadModal (src/components/UploadModal.tsx) -/

/-- The relevant metadata of a selected `File`: byte size and MIME type. -/
structure FileMeta where
  size : Nat
  mimeType : String
deriving Repr, DecidableEq

/-- `const maxSize = 20 * 1024 * 1024` (20 MB). -/
def maxFileSize : Nat := 20 * 1024 * 1024

/-- `allowedTypes`: the MIME allow-list for PDF, DOCX, TXT and MD. -/
def allowedTypes : List String :=
  [ "application/pdf"
  , "application/vnd.openxmlformats-officedocument.wordprocessingml.document"
  , "text/plain"
  , "text/markdown" ]

/-- `uploadStatus` of the modal. -/
inductive UploadStatus where
  | idle | uploading | success | error
deriving Repr, DecidableEq

/-- The modal's state hooks: `file`, `uploadStatus`, `uploadProgress`. -/
structure UploadModalState where
  file : Option FileMeta
  uploadStatus : UploadStatus
  uploadProgress : Nat
deriving Repr, DecidableEq

/-- `handleFileSelect(selectedFile)`: rejects oversize files, then files with a
MIME type outside the allow-list — each rejection returns early with only a
toast; a valid file is stored with status reset to `idle`.  The `ApiCall` list
records network requests issued by the handler: always none. -/
def handleFileSelect (s : UploadModalState) (f : FileMeta) :
    UploadModalState × List Toast × List ApiCall :=
  if f.size > maxFileSize then
    (s, [⟨"File too large", "Please select a file smaller than 20MB."⟩], [])
  else if !(allowedTypes.contains f.mimeType) then
    (s, [⟨"Unsupported file type", "Please upload a PDF, DOCX, TXT, or MD file."⟩], [])
  else
    ({ s with file := some f, uploadStatus := .idle }, [], [])

/-- One firing of the simulated-progress interval:
`setUploadProgress(prev => Math.min(prev + 10, 90))`. -/
def tickProgress (p : Nat) : Nat := min (p + 10) 90

/-- Displayed progress after `n` interval ticks, starting from the
`setUploadProgress(0)` done at the beginning of `handleUpload`. -/
def progressAfterTicks : Nat → Nat
  | 0 => 0
  | n + 1 => tickProgress (progressAfterTicks n)

/-- The sequence of displayed progress values while the upload request is
pending: initial 0 and the value after each of the `n` ticks. -/
def pendingTrace (n : Nat) : List Nat :=
  (List.range (n + 1)).map progressAfterTicks

/-- How the awaited `apiClient.uploadNote` call resolved. -/
inductive UploadOutcome where
  | resolvedOk | resolvedErr
deriving Repr, DecidableEq

/-- The full sequence of displayed progress values of one upload attempt with
`n` interval ticks: on success the interval is cleared and
`setUploadProgress(100)` runs; on failure the interval is cleared and the
progress value is left as it was. -/
def uploadTrace (n : Nat) : UploadOutcome → List Nat
  | .resolvedOk => pendingTrace n ++ [100]
  | .resolvedErr => pendingTrace n

/-! ## QuizInterface (src/components/UploadModal.tsx, second component) -/

/-- A generated quiz question (server-owned; the quiz flow reads `question`,
`type`, `options`, `correctAnswer`). -/
structure Question where
  id : String
  question : String
  qType : String
  difficulty : String
  options : List String
  correctAnswer : Option String
deriving Repr, DecidableEq

instance : Inhabited Question := ⟨⟨"", "", "", "", [], none⟩⟩

/-- An accumulated answer: the question's text (not its id) paired with the
user's answer text. -/
structure Answer where
  question : String
  answer : String
deriving Repr, DecidableEq

/-- `quizState`. -/
inductive QuizPhase where
  | setup | taking | results
deriving Repr, DecidableEq

/-- The quiz component's state hooks. -/
structure QuizS where
  questions : List Question
  currentQuestionIndex : Nat
  answers : List Answer
  selectedAnswer : String
  quizPhase : QuizPhase
  results : Option Json

/-- The state entered on `generateQuiz()` success with question list `qs`:
phase `taking`, index 0, empty accumulator, empty selection. -/
def initQuizState (qs : List Question) : QuizS :=
  { questions := qs, currentQuestionIndex := 0, answers := [],
    selectedAnswer := "", quizPhase := .taking, results := none }

/-- `handleAnswerSelect` / typing into the textarea: sets `selectedAnswer`. -/
def selectAnswer (s : QuizS) (a : String) : QuizS :=
  { s with selectedAnswer := a }

/-- `handleNextQuestion()`: returns early when `selectedAnswer` is empty;
otherwise appends `{question: questions[i].question, answer: selectedAnswer}`
to the accumulator and either advances the index (clearing the selection) or,
on the last question, triggers `submitQuiz(updatedAnswers)` — the triggered
payload is returned as the second component. -/
def handleNextQuestion (s : QuizS) : QuizS × Option (List Answer) :=
  if s.selectedAnswer = "" then (s, none)
  else
    let newAnswer : Answer :=
      { question := (s.questions.getD s.currentQuestionIndex default).question
      , answer := s.selectedAnswer }
    let updatedAnswers := s.answers ++ [newAnswer]
    if s.currentQuestionIndex < s.questions.length - 1 then
      ({ s with answers := updatedAnswers,
                currentQuestionIndex := s.currentQuestionIndex + 1,
                selectedAnswer := "" }, none)
    else
      ({ s with answers := updatedAnswers }, some updatedAnswers)

/-- One user step while taking the quiz: enter/select answer `a`, then click
the advance button (`handleNextQuestion`). -/
def quizStep (s : QuizS) (a : String) : QuizS × Option (List Answer) :=
  handleNextQuestion (selectAnswer s a)

/-- A whole taking session: perform one `quizStep` per input, stopping as soon
as a step triggers submission; returns the final state and the submitted
payload, if any. -/
def runQuiz (s : QuizS) : List String → QuizS × Option (List Answer)
  | [] => (s, none)
  | a :: rest =>
    match quizStep s a with
    | (s', some payload) => (s', some payload)
    | (s', none) => runQuiz s' rest

/-- `submitQuiz(finalAnswers)` after the `await` returns: on success the raw
response is stored and the phase becomes `results`; on failure only a toast is
shown and the state is untouched. -/
def submitQuiz (s : QuizS) (r : Except JsError Json) : QuizS × List Toast :=
  match r with
  | .ok resp => ({ s with results := some resp, quizPhase := .results }, [])
  | .error _ => (s, [⟨"Failed to submit quiz", "Please try again."⟩])

/-- The `{question, answer}` record built by `handleNextQuestion` for question
`q` and entered answer `a`. -/
def mkAnswer (q : Question) (a : String) : Answer :=
  { question := q.question, answer := a }

/-! ## ChatInterface (src/components/ChatInterface.tsx) -/

/-- Message role. -/
inductive Role where
  | user | assistant
deriving Repr, DecidableEq

/-- A transcript entry.  `content` is a `Json` value because the TS code
assigns `(response as any).answer || fallback` into the field without
validation, so a non-string value can flow in. -/
structure ConversationMessage where
  id : String
  role : Role
  content : Json
  timestamp : String

/-- The chat component's state hooks. -/
structure ChatS where
  messages : List ConversationMessage
  inputValue : String
  isLoading : Bool

/-- The JS `String.prototype.trim()`: strip whitespace from both ends. -/
def jsTrim (s : String) : String :=
  String.mk (((s.data.dropWhile Char.isWhitespace).reverse.dropWhile
    Char.isWhitespace).reverse)

/-- The fallback assistant content used when the response's `answer` field is
falsy. -/
def noAnswerFallback : String :=
  "I apologize, but I couldn't generate a response. Please try rephrasing your question."

/-- The synthetic apology message content appended when `askQuestion` throws. -/
def apologyContent : String :=
  "I'm sorry, I encountered an error while processing your question. Please try again."

/-- `(response as any).answer || fallback`: the `answer` field when it is
truthy, else the fallback string. -/
def aiContent (resp : Json) : Json :=
  match resp.lookupField "answer" with
  | some v => if v.truthy then v else .str noAnswerFallback
  | none => .str noAnswerFallback

/-- `handleSendMessage()` with the `await apiClient.askQuestion(...)` resolved
to `r`.  Guard: returns unchanged (no messages, no toasts) when the trimmed
input is empty or a request is outstanding.  Otherwise the optimistic user
message is appended, the input cleared, and then on success one assistant
message with `aiContent`, on failure one synthetic apology message plus a
toast.  `nowId` stands for the `Date.now()` id source. -/
def handleSendMessage (s : ChatS) (nowId : Nat) (now : String)
    (r : Except JsError Json) : ChatS × List Toast :=
  if jsTrim s.inputValue = "" || s.isLoading then (s, [])
  else
    let userMessage : ConversationMessage :=
      { id := toString nowId, role := .user, content := .str s.inputValue,
        timestamp := now }
    let afterUser : ChatS :=
      { messages := s.messages ++ [userMessage], inputValue := "", isLoading := true }
    match r with
    | .ok resp =>
      let aiMessage : ConversationMessage :=
        { id := toString (nowId + 1), role := .assistant,
          content := aiContent resp, timestamp := now }
      ({ afterUser with messages := afterUser.messages ++ [aiMessage],
                        isLoading := false }, [])
    | .error _ =>
      let errorMessage : ConversationMessage :=
        { id := toString (nowId + 1), role := .assistant,
          content := .str apologyContent, timestamp := now }
      ({ afterUser with messages := afterUser.messages ++ [errorMessage],
                        isLoading := false },
       [⟨"Failed to get AI response", "Please try asking your question again."⟩])

/-- The synthetic welcome message seeded by the mount effect for a note whose
display name is `noteName`. -/
def welcomeMessage (noteName : String) (ts : String) : ConversationMessage :=
  { id := "welcome", role := .assistant,
    content := .str ("Hi! I'm your AI study assistant. I've analyzed your note \""
      ++ noteName ++ "\" and I'm ready to help you understand the material. What would you like to know?"),
    timestamp := ts }

/-- The transcript updates that can run during mount: the synchronous
`setMessages([welcomeMessage])` seed, and the completion of the asynchronous
`loadConversations()` — which replaces the transcript with the loaded history
when the response and its `messages` field are truthy, and otherwise (failure,
or a response without a truthy `messages` field) leaves it alone. -/
inductive MountEvent where
  | seedWelcome (noteName : String) (ts : String)
  | loadComplete (history : Option (List ConversationMessage))

/-- Effect of one mount event on the transcript.  Both branches that write use
`setMessages(...)` with a fresh array: each is a wholesale replacement. -/
def applyMountEvent (msgs : List ConversationMessage) : MountEvent → List ConversationMessage
  | .seedWelcome noteName ts => [welcomeMessage noteName ts]
  | .loadComplete none => msgs
  | .loadComplete (some history) => history

/-- Run a sequence of mount events over an initial transcript. -/
def runMount (init : List ConversationMessage) (events : List MountEvent) :
    List ConversationMessage :=
  events.foldl applyMountEvent init

/-! ## Helper lemmas -/

/-- `List.lookup` misses every key that is not among the pairs' first
components. -/
theorem lookup_eq_none_of_not_mem {β : Type} (xs : List (String × β)) (k : String)
    (h : k ∉ xs.map Prod.fst) : xs.lookup k = none := by
  induction xs with
  | nil => rfl
  | cons x xs ih =>
    simp only [List.map_cons, List.mem_cons, not_or] at h
    rw [List.lookup_cons]
    have hk : (k == x.1) = false := by
      simpa [beq_iff_eq] using h.1
    rw [hk]
    exact ih h.2

/-! ## C1 -/

/-- C1 (counterexample): after `logout()`, `uploadNote` still carries an
`Authorization` header — the literal string `Bearer null` — contradicting the
claim that every following protected API call including `uploadNote` carries
no Authorization header. -/
theorem logout_uploadNote_still_has_auth_header :
    (uploadNoteHeaders (logout ⟨some "tok", some "tok"⟩).1).lookup "Authorization"
      = some "Bearer null" := by
  rfl

/-- C1 (amended): `logout()` issues no network call, clears both the in-memory
and the persisted token, makes `isAuthenticated()` return `false`, and every
following call through `request` (whose callers add no Authorization of their
own) carries no Authorization header; `uploadNote`, however, always sets an
Authorization header, which after logout is the literal `Bearer null`. -/
theorem logout_clears_session (s : ClientState) :
    (logout s).2 = [] ∧
    (logout s).1.token = none ∧
    (logout s).1.storedToken = none ∧
    isAuthenticated (logout s).1 = false ∧
    (∀ extra : List (String × String), "Authorization" ∉ extra.map Prod.fst →
      (requestHeaders (logout s).1 extra).lookup "Authorization" = none) ∧
    (uploadNoteHeaders (logout s).1).lookup "Authorization" = some "Bearer null" := by
  refine ⟨rfl, rfl, rfl, rfl, ?_, rfl⟩
  intro extra hextra
  show (("Content-Type", "application/json") :: extra).lookup "Authorization" = none
  rw [List.lookup_cons]
  have hct : (("Authorization" : String) == "Content-Type") = false := by decide
  rw [hct]
  exact lookup_eq_none_of_not_mem extra _ hextra

/-- C1 witness: the amended theorem applied to a concrete logged-in client and
a concrete caller header list. -/
theorem logout_clears_session_witness :
    (requestHeaders (logout ⟨some "tok", some "tok"⟩).1 [("Accept", "text/html")]).lookup
      "Authorization" = none :=
  (logout_clears_session ⟨some "tok", some "tok"⟩).2.2.2.2.1
    [("Accept", "text/html")] (by decide)

/-! ## C8 -/

/-- C8: every non-2xx response makes `request` (and `uploadNote`) throw a
generic error whose message carries only the numeric status (and status text)
— in particular two responses differing only in body throw the same error, so
the caller never receives a structured error body; every 2xx response is
returned as its parsed JSON body unchanged, with no schema validation. -/
theorem response_handling_spec (r : HttpResponse) :
    (¬ (200 ≤ r.status ∧ r.status ≤ 299) →
      handleResponse r = .error ⟨"API Error: " ++ toString r.status ++ " " ++ r.statusText⟩ ∧
      uploadHandleResponse r = .error ⟨"Upload failed: " ++ toString r.status⟩ ∧
      ∀ b : Json, handleResponse { r with body := b } = handleResponse r ∧
        uploadHandleResponse { r with body := b } = uploadHandleResponse r) ∧
    ((200 ≤ r.status ∧ r.status ≤ 299) →
      handleResponse r = .ok r.body ∧ uploadHandleResponse r = .ok r.body) := by
  have hok : r.ok = (decide (200 ≤ r.status) && decide (r.status ≤ 299)) := rfl
  constructor
  · intro h
    have hfalse : r.ok = false := by
      rw [hok]
      simpa [Decidable.not_and_iff_or_not] using h
    have hfalse' : ∀ b : Json, ({ r with body := b } : HttpResponse).ok = false := fun _ => hfalse
    refine ⟨?_, ?_, fun b => ⟨?_, ?_⟩⟩ <;>
      simp [handleResponse, uploadHandleResponse, hfalse, hfalse' _]
  · intro h
    have htrue : r.ok = true := by
      rw [hok]
      simp [h.1, h.2]
    constructor <;> simp [handleResponse, uploadHandleResponse, htrue]

/-- C8 witness: a concrete 404 response throws the status-carrying error, and
a concrete 200 response is passed through. -/
theorem response_handling_spec_witness :
    handleResponse ⟨404, "Not Found", Json.null⟩
        = .error ⟨"API Error: " ++ toString 404 ++ " " ++ "Not Found"⟩ ∧
    handleResponse ⟨200, "OK", Json.str "result"⟩ = .ok (Json.str "result") :=
  ⟨((response_handling_spec ⟨404, "Not Found", Json.null⟩).1 (by decide)).1,
   ((response_handling_spec ⟨200, "OK", Json.str "result"⟩).2 (by decide)).1⟩

/-! ## C5 -/

/-- C5: selecting a file that is oversize (> 20 MB) or has a MIME type outside
the PDF/DOCX/TXT/MD allow-list is rejected before any network call: starting
from an unselected, idle modal, the state is unchanged (file stays unset,
status stays idle), no request is issued, and exactly one toast is emitted. -/
theorem fileSelect_rejects_invalid (s : UploadModalState) (f : FileMeta)
    (hfile : s.file = none) (hstatus : s.uploadStatus = .idle)
    (hbad : f.size > maxFileSize ∨ f.mimeType ∉ allowedTypes) :
    ∃ t : Toast, handleFileSelect s f = (s, [t], []) ∧
      (handleFileSelect s f).1.file = none ∧
      (handleFileSelect s f).1.uploadStatus = .idle := by
  by_cases hsize : f.size > maxFileSize
  · refine ⟨⟨"File too large", "Please select a file smaller than 20MB."⟩, ?_, ?_, ?_⟩ <;>
      simp [handleFileSelect, hsize, hfile, hstatus]
  · have htype : f.mimeType ∉ allowedTypes := hbad.resolve_left hsize
    refine ⟨⟨"Unsupported file type", "Please upload a PDF, DOCX, TXT, or MD file."⟩,
      ?_, ?_, ?_⟩ <;> simp [handleFileSelect, hsize, htype, hfile, hstatus]

/-- C5 witness: a concrete 20 MB + 1 byte PDF is rejected with one toast, no
request, and an unchanged idle state. -/
theorem fileSelect_rejects_invalid_witness :
    ∃ t : Toast,
      handleFileSelect ⟨none, .idle, 0⟩ ⟨maxFileSize + 1, "application/pdf"⟩
        = (⟨none, .idle, 0⟩, [t], []) ∧
      (handleFileSelect ⟨none, .idle, 0⟩ ⟨maxFileSize + 1, "application/pdf"⟩).1.file = none ∧
      (handleFileSelect ⟨none, .idle, 0⟩ ⟨maxFileSize + 1, "application/pdf"⟩).1.uploadStatus
        = .idle :=
  fileSelect_rejects_invalid ⟨none, .idle, 0⟩ ⟨maxFileSize + 1, "application/pdf"⟩
    rfl rfl (Or.inl (by simp [maxFileSize]))

/-! ## C10 -/

/-- C10: when `askQuestion` resolves successfully but the response has no
`answer` field, or an empty-string `answer`, the assistant message appended to
the transcript carries the fixed fallback text rather than empty content. -/
theorem missing_answer_gets_fallback (s : ChatS) (nowId : Nat) (now : String)
    (resp : Json)
    (hin : jsTrim s.inputValue ≠ "") (hload : s.isLoading = false)
    (hans : resp.lookupField "answer" = none ∨ resp.lookupField "answer" = some (.str "")) :
    (handleSendMessage s nowId now (.ok resp)).1.messages =
      s.messages ++
        [⟨toString nowId, .user, .str s.inputValue, now⟩,
         ⟨toString (nowId + 1), .assistant, .str noAnswerFallback, now⟩] := by
  have hcontent : aiContent resp = .str noAnswerFallback := by
    rcases hans with h | h <;> simp [aiContent, h, Json.truthy]
  simp [handleSendMessage, hin, hload, hcontent]

/-- C10 witness: a concrete send against a response with no `answer` field
yields the fallback assistant message. -/
theorem missing_answer_gets_fallback_witness :
    (handleSendMessage ⟨[], "hi", false⟩ 5 "t" (.ok (Json.obj []))).1.messages =
      [] ++ [⟨toString 5, .user, .str "hi", "t"⟩,
             ⟨toString (5 + 1), .assistant, .str noAnswerFallback, "t"⟩] :=
  missing_answer_gets_fallback ⟨[], "hi", false⟩ 5 "t" (Json.obj [])
    (by decide) rfl (Or.inl rfl)

/-! ## C4 -/

/-- C4: a user-initiated send with non-empty (trimmed) input while no request
is outstanding appends exactly one optimistic user message followed by exactly
one assistant message — the fetched answer (with fallback) on success, the
fixed synthetic apology on failure — so the transcript grows by exactly 2. -/
theorem send_appends_exactly_two (s : ChatS) (nowId : Nat) (now : String)
    (r : Except JsError Json)
    (hin : jsTrim s.inputValue ≠ "") (hload : s.isLoading = false) :
    ∃ ai : ConversationMessage,
      (handleSendMessage s nowId now r).1.messages =
        s.messages ++ [⟨toString nowId, .user, .str s.inputValue, now⟩, ai] ∧
      ai.role = .assistant ∧
      (handleSendMessage s nowId now r).1.messages.length = s.messages.length + 2 ∧
      (∀ resp, r = .ok resp → ai.content = aiContent resp) ∧
      (∀ e, r = .error e → ai.content = .str apologyContent) := by
  cases r with
  | ok resp =>
    refine ⟨⟨toString (nowId + 1), .assistant, aiContent resp, now⟩, ?_, rfl, ?_, ?_, ?_⟩
    · simp [handleSendMessage, hin, hload]
    · simp [handleSendMessage, hin, hload]
    · intro resp' h
      cases h
      rfl
    · intro e h
      cases h
  | error e =>
    refine ⟨⟨toString (nowId + 1), .assistant, .str apologyContent, now⟩, ?_, rfl, ?_, ?_, ?_⟩
    · simp [handleSendMessage, hin, hload]
    · simp [handleSendMessage, hin, hload]
    · intro resp' h
      cases h
    · intro e' h
      cases h
      rfl

/-- C4 witness: a concrete failed send appends the user message and the
synthetic apology, growing the transcript by 2. -/
theorem send_appends_exactly_two_witness :
    ∃ ai : ConversationMessage,
      (handleSendMessage ⟨[], "why?", false⟩ 7 "t" (.error ⟨"boom"⟩)).1.messages =
        [] ++ [⟨toString 7, .user, .str "why?", "t"⟩, ai] ∧
      ai.role = .assistant ∧
      (handleSendMessage ⟨[], "why?", false⟩ 7 "t" (.error ⟨"boom"⟩)).1.messages.length
        = ([] : List ConversationMessage).length + 2 ∧
      (∀ resp, (.error ⟨"boom"⟩ : Except JsError Json) = .ok resp → ai.content = aiContent resp) ∧
      (∀ e, (.error ⟨"boom"⟩ : Except JsError Json) = .error e →
        ai.content = .str apologyContent) :=
  send_appends_exactly_two ⟨[], "why?", false⟩ 7 "t" (.error ⟨"boom"⟩) (by decide) rfl

/-! ## C7 -/

/-- C7: when `submitAnswers` fails, the quiz state is left completely
untouched — still `taking`, same questions and answer accumulator — and only a
toast is shown; the phase becomes `results`, storing the returned response,
exactly when submission succeeds. -/
theorem submit_failure_preserves_quiz (s : QuizS) (r : Except JsError Json)
    (htaking : s.quizPhase = .taking) :
    (∀ e, r = .error e →
      (submitQuiz s r).1 = s ∧
      (submitQuiz s r).1.quizPhase = .taking ∧
      (submitQuiz s r).2 = [⟨"Failed to submit quiz", "Please try again."⟩]) ∧
    (∀ resp, r = .ok resp →
      (submitQuiz s r).1.quizPhase = .results ∧
      (submitQuiz s r).1.results = some resp ∧
      (submitQuiz s r).1.questions = s.questions ∧
      (submitQuiz s r).1.answers = s.answers ∧
      (submitQuiz s r).2 = []) ∧
    ((submitQuiz s r).1.quizPhase = .results ↔ ∃ resp, r = .ok resp) := by
  cases r with
  | ok resp =>
    refine ⟨?_, ?_, ?_⟩
    · intro e h
      cases h
    · intro resp' h
      cases h
      exact ⟨rfl, rfl, rfl, rfl, rfl⟩
    · exact ⟨fun _ => ⟨resp, rfl⟩, fun _ => rfl⟩
  | error e =>
    refine ⟨?_, ?_, ?_⟩
    · intro e' h
      cases h
      exact ⟨rfl, htaking, rfl⟩
    · intro resp h
      cases h
    · constructor
      · intro hres
        rw [show (submitQuiz s (.error e)).1 = s from rfl, htaking] at hres
        cases hres
      · rintro ⟨resp, h⟩
        cases h

/-- C7 witness: a concrete failed submission leaves a concrete `taking` state
untouched and shows one toast. -/
theorem submit_failure_preserves_quiz_witness :
    (submitQuiz ⟨[], 0, [], "", .taking, none⟩ (.error ⟨"boom"⟩)).1
        = ⟨[], 0, [], "", .taking, none⟩ ∧
    (submitQuiz ⟨[], 0, [], "", .taking, none⟩ (.error ⟨"boom"⟩)).1.quizPhase = .taking ∧
    (submitQuiz ⟨[], 0, [], "", .taking, none⟩ (.error ⟨"boom"⟩)).2
        = [⟨"Failed to submit quiz", "Please try again."⟩] :=
  (submit_failure_preserves_quiz ⟨[], 0, [], "", .taking, none⟩ (.error ⟨"boom"⟩) rfl).1
    ⟨"boom"⟩ rfl

/-! ## C6 -/

/-- The simulated progress value never exceeds the 90 cap while pending. -/
theorem progressAfterTicks_le_90 (n : Nat) : progressAfterTicks n ≤ 90 := by
  cases n with
  | zero => simp [progressAfterTicks]
  | succ m => exact Nat.min_le_right _ _

/-- The simulated progress value is monotone in the number of ticks. -/
theorem progressAfterTicks_mono : Monotone progressAfterTicks := by
  apply monotone_nat_of_le_succ
  intro n
  exact le_min (Nat.le_add_right _ _) (progressAfterTicks_le_90 n)

/-- C6: over any upload attempt (any number of simulated-progress ticks, any
outcome), the displayed progress sequence is monotonically non-decreasing,
every value displayed while the request is pending is at most 90, and the
value 100 appears in the sequence exactly when the upload resolved
successfully (it is set only after the successful resolution). -/
theorem upload_progress_spec (n : Nat) (o : UploadOutcome) :
    (uploadTrace n o).Pairwise (· ≤ ·) ∧
    (∀ p ∈ pendingTrace n, p ≤ 90) ∧
    (100 ∈ uploadTrace n o ↔ o = .resolvedOk) := by
  have hle : ∀ p ∈ pendingTrace n, p ≤ 90 := by
    intro p hp
    rcases List.mem_map.mp hp with ⟨i, _, rfl⟩
    exact progressAfterTicks_le_90 i
  have hpw : (pendingTrace n).Pairwise (· ≤ ·) :=
    (List.pairwise_lt_range (n + 1)).map progressAfterTicks
      (fun _ _ hab => progressAfterTicks_mono (Nat.le_of_lt hab))
  refine ⟨?_, hle, ?_⟩
  · cases o with
    | resolvedOk =>
      refine List.pairwise_append.mpr ⟨hpw, List.pairwise_singleton _ _, ?_⟩
      intro a ha b hb
      rw [List.mem_singleton.mp hb]
      exact le_trans (hle a ha) (by norm_num)
    | resolvedErr => exact hpw
  · cases o with
    | resolvedOk =>
      exact ⟨fun _ => rfl, fun _ => List.mem_append_right _ (List.mem_singleton.mpr rfl)⟩
    | resolvedErr =>
      constructor
      · intro hmem
        exact absurd (hle 100 hmem) (by norm_num)
      · intro h
        cases h

/-- C6 witness: the theorem applied to a concrete attempt with three ticks and
a successful resolution. -/
theorem upload_progress_spec_witness :
    (uploadTrace 3 .resolvedOk).Pairwise (· ≤ ·) ∧
    (∀ p ∈ pendingTrace 3, p ≤ 90) ∧
    (100 ∈ uploadTrace 3 .resolvedOk ↔ UploadOutcome.resolvedOk = .resolvedOk) :=
  upload_progress_spec 3 .resolvedOk

/-! ## C2 / C3: runs of the quiz state machine -/

instance : Inhabited Answer := ⟨⟨"", ""⟩⟩

/-- A non-empty advance strictly before the last question appends the answer,
bumps the index, and clears the selection. -/
theorem quizStep_advance (qs : List Question) (k : Nat) (acc : List Answer) (a : String)
    (ha : a ≠ "") (hk : k < qs.length - 1) :
    quizStep ⟨qs, k, acc, "", .taking, none⟩ a
      = (⟨qs, k + 1, acc ++ [mkAnswer (qs.getD k default) a], "", .taking, none⟩, none) := by
  simp [quizStep, selectAnswer, handleNextQuestion, ha, hk, mkAnswer]

/-- A non-empty advance on the last question appends the answer and triggers
submission of the full accumulator. -/
theorem quizStep_submit (qs : List Question) (k : Nat) (acc : List Answer) (a : String)
    (ha : a ≠ "") (hk : ¬ k < qs.length - 1) :
    quizStep ⟨qs, k, acc, "", .taking, none⟩ a
      = (⟨qs, k, acc ++ [mkAnswer (qs.getD k default) a], a, .taking, none⟩,
         some (acc ++ [mkAnswer (qs.getD k default) a])) := by
  simp [quizStep, selectAnswer, handleNextQuestion, ha, hk, mkAnswer]

/-- After processing `inputs` (all non-empty, not overrunning the question
list) from index `k` with accumulator `acc`, the accumulator is `acc` extended
by one `{question, answer}` record per input, pairing `qs[k+i]` with input
`i`. -/
theorem runQuiz_answers_aux (qs : List Question) (inputs : List String) :
    ∀ (k : Nat) (acc : List Answer),
      (∀ a ∈ inputs, a ≠ "") → k + inputs.length ≤ qs.length →
      (runQuiz ⟨qs, k, acc, "", .taking, none⟩ inputs).1.answers
        = acc ++ List.zipWith mkAnswer (qs.drop k) inputs := by
  induction inputs with
  | nil =>
    intro k acc _ _
    simp [runQuiz]
  | cons a rest ih =>
    intro k acc hne hlen
    have ha : a ≠ "" := hne a (List.mem_cons_self a rest)
    have hk : k < qs.length := by
      simp only [List.length_cons] at hlen
      omega
    have hdrop : qs.drop k = qs.get ⟨k, hk⟩ :: qs.drop (k + 1) :=
      List.drop_eq_getElem_cons hk
    have hgetD : qs.getD k default = qs.get ⟨k, hk⟩ :=
      List.getD_eq_getElem qs default hk
    by_cases hlast : k < qs.length - 1
    · rw [show runQuiz ⟨qs, k, acc, "", .taking, none⟩ (a :: rest)
          = runQuiz ⟨qs, k + 1, acc ++ [mkAnswer (qs.getD k default) a], "", .taking, none⟩
              rest by
        simp [runQuiz, quizStep_advance qs k acc a ha hlast]]
      rw [ih (k + 1) _ (fun x hx => hne x (List.mem_cons_of_mem a hx))
          (by simp only [List.length_cons] at hlen; omega)]
      rw [hdrop, List.zipWith_cons_cons, hgetD]
      simp
    · have hrest : rest = [] := by
        simp only [List.length_cons] at hlen
        have : k = qs.length - 1 := by omega
        cases rest with
        | nil => rfl
        | cons b bs => simp only [List.length_cons] at hlen; omega
      subst hrest
      rw [show runQuiz ⟨qs, k, acc, "", .taking, none⟩ [a]
          = (⟨qs, k, acc ++ [mkAnswer (qs.getD k default) a], a, .taking, none⟩,
             some (acc ++ [mkAnswer (qs.getD k default) a])) by
        simp [runQuiz, quizStep_submit qs k acc a ha hlast]]
      rw [hdrop, List.zipWith_cons_cons, hgetD]
      simp

/-- When the inputs exactly exhaust the question list, the run triggers one
submission whose payload pairs each question's text with its entered
answer, in question order. -/
theorem runQuiz_submit_aux (qs : List Question) (inputs : List String) :
    ∀ (k : Nat) (acc : List Answer),
      (∀ a ∈ inputs, a ≠ "") → inputs ≠ [] → k + inputs.length = qs.length →
      (runQuiz ⟨qs, k, acc, "", .taking, none⟩ inputs).2
        = some (acc ++ List.zipWith mkAnswer (qs.drop k) inputs) := by
  induction inputs with
  | nil =>
    intro k acc _ hne _
    exact absurd rfl hne
  | cons a rest ih =>
    intro k acc hne _ hlen
    have ha : a ≠ "" := hne a (List.mem_cons_self a rest)
    have hk : k < qs.length := by
      simp only [List.length_cons] at hlen
      omega
    have hdrop : qs.drop k = qs.get ⟨k, hk⟩ :: qs.drop (k + 1) :=
      List.drop_eq_getElem_cons hk
    have hgetD : qs.getD k default = qs.get ⟨k, hk⟩ :=
      List.getD_eq_getElem qs default hk
    cases rest with
    | nil =>
      have hlast : ¬ k < qs.length - 1 := by
        simp only [List.length_cons, List.length_nil] at hlen
        omega
      rw [show runQuiz ⟨qs, k, acc, "", .taking, none⟩ [a]
          = (⟨qs, k, acc ++ [mkAnswer (qs.getD k default) a], a, .taking, none⟩,
             some (acc ++ [mkAnswer (qs.getD k default) a])) by
        simp [runQuiz, quizStep_submit qs k acc a ha hlast]]
      rw [hdrop, List.zipWith_cons_cons, hgetD]
      simp
    | cons b bs =>
      have hlast : k < qs.length - 1 := by
        simp only [List.length_cons] at hlen
        omega
      rw [show runQuiz ⟨qs, k, acc, "", .taking, none⟩ (a :: b :: bs)
          = runQuiz ⟨qs, k + 1, acc ++ [mkAnswer (qs.getD k default) a], "", .taking, none⟩
              (b :: bs) by
        simp [runQuiz, quizStep_advance qs k acc a ha hlast]]
      rw [ih (k + 1) _ (fun x hx => hne x (List.mem_cons_of_mem a hx))
          (by simp) (by simp only [List.length_cons] at hlen ⊢; omega)]
      rw [hdrop, List.zipWith_cons_cons, hgetD]
      simp

/-- C2: in a session in which the user answers and advances through all
generated questions, exactly one submission fires, its payload has as many
entries as questions were generated, and entry `i` pairs the text of question
`i` with the answer entered at step `i`, in question order. -/
theorem submit_payload_matches_questions (qs : List Question) (inputs : List String)
    (hne : inputs ≠ []) (hnonempty : ∀ a ∈ inputs, a ≠ "")
    (hlen : inputs.length = qs.length) :
    (runQuiz (initQuizState qs) inputs).2 = some (List.zipWith mkAnswer qs inputs) ∧
    (List.zipWith mkAnswer qs inputs).length = qs.length ∧
    ∀ i, i < qs.length →
      (List.zipWith mkAnswer qs inputs).getD i default
        = ⟨(qs.getD i default).question, inputs.getD i ""⟩ := by
  refine ⟨?_, ?_, ?_⟩
  · have h := runQuiz_submit_aux qs inputs 0 [] hnonempty hne (by omega)
    simpa [initQuizState] using h
  · rw [List.length_zipWith]
    omega
  · intro i h1
    have h2 : i < inputs.length := by omega
    have hz : i < (List.zipWith mkAnswer qs inputs).length := by
      rw [List.length_zipWith]
      omega
    rw [List.getD_eq_getElem _ _ hz, List.getElem_zipWith,
      List.getD_eq_getElem qs default h1, List.getD_eq_getElem inputs "" h2]
    rfl

/-- C2 witness: a concrete 2-question session submits a 2-element payload in
question order. -/
theorem submit_payload_matches_questions_witness :
    (runQuiz (initQuizState
        [⟨"q1", "Q1?", "multiple_choice", "medium", ["A", "B"], none⟩,
         ⟨"q2", "Q2?", "multiple_choice", "medium", ["C", "D"], none⟩]) ["A", "D"]).2
      = some (List.zipWith mkAnswer
          [⟨"q1", "Q1?", "multiple_choice", "medium", ["A", "B"], none⟩,
           ⟨"q2", "Q2?", "multiple_choice", "medium", ["C", "D"], none⟩] ["A", "D"]) :=
  (submit_payload_matches_questions
    [⟨"q1", "Q1?", "multiple_choice", "medium", ["A", "B"], none⟩,
     ⟨"q2", "Q2?", "multiple_choice", "medium", ["C", "D"], none⟩] ["A", "D"]
    (by decide) (by decide) rfl).1

/-- C3: in the `taking` phase an advance with an empty current answer leaves
the whole quiz state unchanged; after `N` non-empty advances the accumulator
holds exactly `N` entries, and entry `i`'s `question` field is the text of the
question displayed at step `i` (the question at index `i`). -/
theorem quiz_advance_blocked_or_accumulates :
    (∀ s : QuizS, s.selectedAnswer = "" → handleNextQuestion s = (s, none)) ∧
    ∀ (qs : List Question) (inputs : List String),
      (∀ a ∈ inputs, a ≠ "") → inputs.length ≤ qs.length →
      (runQuiz (initQuizState qs) inputs).1.answers.length = inputs.length ∧
      ∀ i, i < inputs.length →
        ((runQuiz (initQuizState qs) inputs).1.answers.getD i default).question
          = (qs.getD i default).question := by
  constructor
  · intro s h
    simp [handleNextQuestion, h]
  · intro qs inputs hnonempty hlen
    have hans : (runQuiz (initQuizState qs) inputs).1.answers
        = List.zipWith mkAnswer qs inputs := by
      have h := runQuiz_answers_aux qs inputs 0 [] hnonempty (by omega)
      simpa [initQuizState] using h
    constructor
    · rw [hans, List.length_zipWith]
      omega
    · intro i hi
      have h1 : i < qs.length := by omega
      have hz : i < (List.zipWith mkAnswer qs inputs).length := by
        rw [List.length_zipWith]
        omega
      rw [hans, List.getD_eq_getElem _ _ hz, List.getElem_zipWith,
        List.getD_eq_getElem qs default h1]
      rfl

/-- C3 witness: one non-empty advance on a concrete 2-question quiz leaves one
entry in the accumulator, matching the first question's text. -/
theorem quiz_advance_blocked_or_accumulates_witness :
    (runQuiz (initQuizState
        [⟨"q1", "Q1?", "multiple_choice", "medium", ["A", "B"], none⟩,
         ⟨"q2", "Q2?", "multiple_choice", "medium", ["C", "D"], none⟩]) ["A"]).1.answers.length
      = 1 :=
  (quiz_advance_blocked_or_accumulates.2
    [⟨"q1", "Q1?", "multiple_choice", "medium", ["A", "B"], none⟩,
     ⟨"q2", "Q2?", "multiple_choice", "medium", ["C", "D"], none⟩] ["A"]
    (by decide) (by decide)).1

/-! ## C9 -/

/-- A sample previously-stored history message. -/
def histMsg : ConversationMessage :=
  ⟨"1", .user, .str "What is photosynthesis?", "t0"⟩

/-- Every transcript reachable by mount events is wholesale: the initial
transcript, exactly the seeded welcome singleton, or exactly a loaded
history. -/
theorem runMount_cases (init : List ConversationMessage) (evs : List MountEvent) :
    runMount init evs = init ∨
    (∃ nn ts, runMount init evs = [welcomeMessage nn ts]) ∨
    (∃ h, MountEvent.loadComplete (some h) ∈ evs ∧ runMount init evs = h) := by
  induction evs generalizing init with
  | nil => exact Or.inl rfl
  | cons e es ih =>
    have hstep : runMount init (e :: es) = runMount (applyMountEvent init e) es := rfl
    rcases ih (applyMountEvent init e) with h | ⟨nn, ts, h⟩ | ⟨hh, hmem, h⟩
    · cases e with
      | seedWelcome nn ts =>
        exact Or.inr (Or.inl ⟨nn, ts, by rw [hstep, h]; rfl⟩)
      | loadComplete rr =>
        cases rr with
        | none => exact Or.inl (by rw [hstep, h]; rfl)
        | some hh =>
          exact Or.inr (Or.inr ⟨hh, List.mem_cons_self _ _, by rw [hstep, h]; rfl⟩)
    · exact Or.inr (Or.inl ⟨nn, ts, by rw [hstep]; exact h⟩)
    · exact Or.inr (Or.inr ⟨hh, List.mem_cons_of_mem _ hmem, by rw [hstep]; exact h⟩)

/-- C9 (counterexample): under neither completion ordering of the unconditional
welcome seed and the history load do the loaded history and the welcome
message coexist in the transcript — each `setMessages` replaces the transcript
wholesale. -/
theorem chat_mount_no_coexistence :
    ¬ ((∃ m ∈ runMount []
            [.seedWelcome "notes.pdf" "t1", .loadComplete (some [histMsg])],
          m.id = "welcome") ∧
       (∃ m ∈ runMount []
            [.seedWelcome "notes.pdf" "t1", .loadComplete (some [histMsg])],
          m.id = "1")) ∧
    ¬ ((∃ m ∈ runMount []
            [.loadComplete (some [histMsg]), .seedWelcome "notes.pdf" "t1"],
          m.id = "welcome") ∧
       (∃ m ∈ runMount []
            [.loadComplete (some [histMsg]), .seedWelcome "notes.pdf" "t1"],
          m.id = "1")) := by
  constructor
  · rintro ⟨⟨m, hm, hid⟩, -⟩
    have : m = histMsg := by
      simpa [runMount, applyMountEvent] using hm
    rw [this] at hid
    exact absurd hid (by decide)
  · rintro ⟨-, ⟨m, hm, hid⟩⟩
    have : m = welcomeMessage "notes.pdf" "t1" := by
      simpa [runMount, applyMountEvent] using hm
    rw [this] at hid
    exact absurd hid (by decide)

/-- C9 (amended): the mount unconditionally seeds the welcome message in
addition to initiating the asynchronous history load, but both updates replace
the transcript wholesale: when the load completes after the seed with a truthy
history it overwrites the welcome, when it fails (or yields no `messages`
field) the welcome persists, and under the reverse ordering the welcome also
persists — so under every completion ordering the final transcript is the
loaded history alone or the welcome alone, never both. -/
theorem chat_mount_replaces (nn ts : String) (init : List ConversationMessage)
    (r : Option (List ConversationMessage)) (evs : List MountEvent) :
    (∀ h, r = some h →
      runMount init [.seedWelcome nn ts, .loadComplete r] = h) ∧
    (r = none →
      runMount init [.seedWelcome nn ts, .loadComplete r] = [welcomeMessage nn ts]) ∧
    runMount init [.loadComplete r, .seedWelcome nn ts] = [welcomeMessage nn ts] ∧
    (runMount init evs = init ∨
      (∃ nn' ts', runMount init evs = [welcomeMessage nn' ts']) ∨
      (∃ h, MountEvent.loadComplete (some h) ∈ evs ∧ runMount init evs = h)) := by
  refine ⟨?_, ?_, ?_, runMount_cases init evs⟩
  · intro h hr
    subst hr
    rfl
  · intro hr
    subst hr
    rfl
  · cases r <;> rfl

/-- C9 witness (of the amended theorem): with the JS ordering — seed first,
load completion second — a concrete loaded history replaces the welcome
wholesale. -/
theorem chat_mount_replaces_witness :
    runMount [] [.seedWelcome "notes.pdf" "t1", .loadComplete (some [histMsg])]
      = [histMsg] :=
  (chat_mount_replaces "notes.pdf" "t1" [] (some [histMsg]) []).1 [histMsg] rfl

end StudyBuddy
